import Mathlib

/-!
Shallow embedding of `hexapodMotion.py` (class `hexapodMotion`), the gait /
inverse-kinematics / servo-mapping core of the hexapod walking robot.

Modelling conventions:
* Python floats are modelled as `ℚ`; the numeric values of the transcendental
  library functions (`sin`, `cos`, `tan`, `math.sin`, `math.acos`,
  `math.radians`, `math.degrees`) and of the external iterative root finder
  `scipy.optimize.newton` are abstracted into a `TrigOps` record, since their
  floating-point values are not rational-arithmetic expressible; all control
  flow, state updates, caching, bounds checks and error propagation are
  embedded exactly.
* `math.acos` raising `ValueError` outside `[-1, 1]`, float division by zero
  raising `ZeroDivisionError`, and `scipy.optimize.newton` raising
  `RuntimeError` on non-convergence are modelled with an explicit `PyExn`
  result channel; an uncaught exception propagates out of the embedded
  function, exactly as in the source (which installs no handler).
* Mutation of `self` is modelled by explicit state passing (`HexState`), and
  externally visible actions (PWM writes, log lines, spawned unlock timers,
  sleeps) are collected in an event list.
-/

namespace Hexapod

/-- Python `int()` conversion: truncation toward zero. -/
def pyInt (q : ℚ) : ℤ := if q < 0 then -((-q).floor) else q.floor

/-- Python `int(round(x, 0))`: round half to even, then truncate (a no-op on
the already-integral value). -/
def pyRound (q : ℚ) : ℤ :=
  let f := q.floor
  let r := q - (f : ℚ)
  if r < 1/2 then f
  else if 1/2 < r then f + 1
  else if f % 2 = 0 then f else f + 1

/-- Python `%` on floats with a positive modulus: `x - y * floor (x / y)`. -/
def pymod (x y : ℚ) : ℚ := x - y * ((x / y).floor : ℚ)

/-- Exceptions the embedded code can raise, mirroring the Python exceptions
that the source leaves uncaught. -/
inductive PyExn
  /-- Python `ValueError`, raised by `math.acos` on an argument outside `[-1, 1]`. -/
  | valueError
  /-- Python `ZeroDivisionError`, raised by float division by zero. -/
  | zeroDivisionError
  /-- Python `RuntimeError`, raised by `scipy.optimize.newton` on non-convergence. -/
  | runtimeError
deriving DecidableEq

/-- Legs are indexed `1..6` in the source; we use `Fin 6`, leg number `i+1`. -/
abbrev Leg := Fin 6

/-- The three joints of a leg (`coxa`, `femur`, `tibia` name prefixes of the
`legSection` strings of the source). -/
inductive JointKind
  | coxa
  | femur
  | tibia
deriving DecidableEq

/-- A `legSection` string such as `"femur3"`: a joint kind plus a leg. -/
structure Joint where
  kind : JointKind
  leg : Leg
deriving DecidableEq

/-- One servo calibration row: `[pulseLen1, pulseLen2, degrees1, degrees2]`. -/
structure ServoParam where
  pulseLen1 : ℤ
  pulseLen2 : ℤ
  deg1 : ℤ
  deg2 : ℤ

/-- The `servoParameters` calibration table. -/
def servoParameters (j : Joint) : ServoParam :=
  match j.kind, j.leg with
  | .coxa, 0 => ⟨376, 255, 0, 45⟩
  | .coxa, 1 => ⟨353, 255, 0, 40⟩
  | .coxa, 2 => ⟨365, 255, 0, 43⟩
  | .coxa, 3 => ⟨360, 455, 0, 29⟩
  | .coxa, 4 => ⟨401, 475, 0, 25⟩
  | .coxa, 5 => ⟨365, 475, 0, 35⟩
  | .femur, 0 => ⟨369, 575, 0, 75⟩
  | .femur, 1 => ⟨351, 568, 0, 77⟩
  | .femur, 2 => ⟨386, 192, 0, 73⟩
  | .femur, 3 => ⟨392, 580, 0, 67⟩
  | .femur, 4 => ⟨380, 180, 0, 75⟩
  | .femur, 5 => ⟨382, 170, 0, 69⟩
  | .tibia, 0 => ⟨340, 582, 0, 75⟩
  | .tibia, 1 => ⟨340, 180, 0, 75⟩
  | .tibia, 2 => ⟨359, 180, 0, 75⟩
  | .tibia, 3 => ⟨380, 582, 0, 75⟩
  | .tibia, 4 => ⟨347, 582, 0, 75⟩
  | .tibia, 5 => ⟨367, 180, 0, 75⟩

/-- The `servoChans` channel map on the PWM chips. -/
def servoChans (j : Joint) : ℕ :=
  match j.kind, j.leg with
  | .coxa, 0 => 0
  | .coxa, 1 => 3
  | .coxa, 2 => 11
  | .coxa, 3 => 4
  | .coxa, 4 => 12
  | .coxa, 5 => 15
  | .femur, 0 => 1
  | .femur, 1 => 4
  | .femur, 2 => 12
  | .femur, 3 => 3
  | .femur, 4 => 11
  | .femur, 5 => 14
  | .tibia, 0 => 2
  | .tibia, 1 => 5
  | .tibia, 2 => 13
  | .tibia, 3 => 2
  | .tibia, 4 => 10
  | .tibia, 5 => 13

-- mechanical parameters in cm
def coxaFemurLen : ℚ := 17/10
def femurLen : ℚ := 8
def tibiaLen : ℚ := 25/2

-- global absolute limits for servo travel
def minPulseLen : ℤ := 170
def maxPulseLen : ℤ := 580

-- initial (standing) pose parameters
def femurStandStartAngle : ℚ := 20
def tibiaStandStartAngle : ℚ := -10
def coxaStandStartAngle : ℚ := 0

-- walk parameters
def walkResolution : ℚ := 60
def stepAngle : ℚ := 360 / walkResolution
def coxaWalkSweepAngle : ℚ := 22
def servoMaxSpeed : ℚ := 60 / (35/100)
def stepTimeInterval : ℚ := 1/1000

/-- Source `getPulseLenFromAngle`: linear interpolation/extrapolation of a servo pulse
length from the two calibration points, rounded to an integer. -/
def getPulseLenFromAngle (legSection : Joint) (angle : ℚ) : ℤ :=
  let p := servoParameters legSection
  let totalSteps : ℚ := (p.pulseLen2 : ℚ) - (p.pulseLen1 : ℚ)
  let totalAngle : ℚ := (p.deg2 : ℚ) - (p.deg1 : ℚ)
  let slope := totalSteps / totalAngle
  let intercept := (p.pulseLen1 : ℚ) - slope * (p.deg1 : ℚ)
  pyRound (slope * angle + intercept)

/-- Which PWM chip a channel write goes to (`pwmR` for legs 1-3, `pwmL` for
legs 4-6). -/
inductive PwmSide
  | left
  | right
deriving DecidableEq

/-- Externally visible actions of the embedded code. -/
inductive Event
  /-- A `pwm.setPWM(servoChan, 0, pulseLen)` call: an actuator command. -/
  | setPWM (side : PwmSide) (chan : ℕ) (pulse : ℤ)
  /-- the `log("servo ... out of range pos ...")` line of `moveServoToAngle`. -/
  | logOutOfRange (legSection : Joint) (pulse : ℤ)
  /-- the `log("tibiaFemurWalkAngles being calculated ...")` line. -/
  | logCalcNotice (leg : Leg) (coxaAngle : ℚ)
  /-- The `thread.start_new_thread(self.legTimedUnlock, (leg, sleepTime,))` call. -/
  | spawnUnlock (leg : Leg) (sleepTime : ℚ)
  /-- A `time.sleep(t)` call. -/
  | sleep (t : ℚ)

/-- Recognizer for actuator commands among events. -/
def Event.isSetPWM : Event → Bool
  | .setPWM _ _ _ => true
  | _ => false

/-- The mutable state of a `hexapodMotion` instance. -/
structure HexState where
  /-- Field `testMode`: when true, servos are not moved. -/
  testMode : Bool
  /-- The `currentServoAngles` dictionary (missing key = `none`). -/
  currentServoAngles : Joint → Option ℚ
  /-- The `legCommandLock` dictionary. -/
  legCommandLock : Leg → Bool
  /-- Field `walkSpeed`: float in `[-1, 1]`, sign gives direction. -/
  walkSpeed : ℚ
  /-- The `legWalkAngles` dictionary: the per-leg walk phase. -/
  legWalkAngles : Leg → ℚ
  /-- The `tibiaFemurWalkAnglesCache` dictionary: raw-valued keys, value `(femur, tibia)`. -/
  tibiaFemurWalkAnglesCache : ℚ → Option (ℚ × ℚ)
  /-- Field `self.robotHeight`, computed once in `__init__`. -/
  robotHeight : ℚ
  /-- Field `self.stanceWidth`, computed once in `__init__`. -/
  stanceWidth : ℚ
  /-- Field `self.tibiaIntersectWidth`, computed once in `__init__`. -/
  tibiaIntersectWidth : ℚ

/-- Values of the transcendental float functions and of the external
`scipy.optimize.newton` root finder, abstracted as an oracle record.  The
degree-based helpers correspond to the module-level `sin`, `cos`, `tan`
wrappers of the source; `mathSin` is `math.sin`; `mathAcosVal` is the value of
`math.acos` on an in-domain argument (the domain check itself is embedded
explicitly); `radians` and `degrees` are `math.radians` / `math.degrees`. -/
structure TrigOps where
  sinDeg : ℚ → ℚ
  cosDeg : ℚ → ℚ
  tanDeg : ℚ → ℚ
  mathSin : ℚ → ℚ
  mathAcosVal : ℚ → ℚ
  radians : ℚ → ℚ
  degrees : ℚ → ℚ
  /-- The call `scipy.optimize.newton(f, x0)` where `f` is the IK residual determined
  by `robotHeight` and `d`; `none` models the `RuntimeError` raised on
  non-convergence. -/
  newton : ℚ → ℚ → ℚ → Option ℚ

/-- Source `generateLegWalkOffsets`: the initial per-leg walk phase offsets. -/
def generateLegWalkOffsets : Leg → ℚ
  | 0 => 150
  | 1 => 210
  | 2 => 90
  | 3 => 180
  | 4 => 120
  | 5 => 240

/-- Source `direction`: the sign of `walkSpeed`. -/
def direction (walkSpeed : ℚ) : ℚ :=
  if walkSpeed < 0 then -1
  else if walkSpeed = 0 then 0
  else 1

/-- Source `stepIntervalMultiplier`: the speed-dependent multiplier of
`stepTimeInterval`.  Note that the source line `if scale > maxScale:
scale == maxScale` compares instead of assigning and so has no effect, and is
also unreachable for `|walkSpeed| ≤ 1`; it is therefore omitted here. -/
def stepIntervalMultiplier (walkSpeed : ℚ) : ℤ :=
  let maxLegCommandLockTime := 2 * coxaWalkSweepAngle / servoMaxSpeed
  let minTimeInterval := maxLegCommandLockTime / walkResolution
  let minScale := pyInt (minTimeInterval / stepTimeInterval) + 5
  let maxScale : ℤ := 80
  let scale := pyInt ((1 - |walkSpeed|) * (maxScale : ℚ))
  if scale ≤ 0 then minScale else scale

/-- Source `calcRobotHeight`: vertical distance from tibia tip to femur/coxa pivot. -/
def calcRobotHeight (ops : TrigOps) (femurAngle tibiaAngle : ℚ) : ℚ :=
  tibiaLen * ops.cosDeg (femurAngle + tibiaAngle) - femurLen * ops.sinDeg femurAngle

/-- Source `calcStanceWidth`: horizontal distance from tibia tip to femur pivot. -/
def calcStanceWidth (ops : TrigOps) (femurAngle tibiaAngle : ℚ) : ℚ :=
  femurLen * ops.cosDeg femurAngle + tibiaLen * ops.sinDeg (femurAngle + tibiaAngle)

/-- Source `calcTibiaIntersectWidth`: horizontal distance from femur pivot to tibia
intersect. -/
def calcTibiaIntersectWidth (ops : TrigOps) (femurAngle tibiaAngle : ℚ) : ℚ :=
  femurLen * ops.cosDeg femurAngle +
    femurLen * ops.sinDeg femurAngle * ops.tanDeg (femurAngle + tibiaAngle)

/-- Source `moveServoToAngle`: map the angle to a pulse length; if the pulse is
within the global bounds, command the servo (unless in test mode) and record
the angle as current; otherwise only log, leaving all state unchanged. -/
def moveServoToAngle (s : HexState) (legSection : Joint) (angle : ℚ) :
    HexState × List Event :=
  let servoChan := servoChans legSection
  let pulseLen := getPulseLenFromAngle legSection angle
  let side := if legSection.leg.val + 1 ≤ 3 then PwmSide.right else PwmSide.left
  if minPulseLen ≤ pulseLen ∧ pulseLen ≤ maxPulseLen then
    ({ s with currentServoAngles :=
        Function.update s.currentServoAngles legSection (some angle) },
     if s.testMode = false then [Event.setPWM side servoChan pulseLen] else [])
  else
    (s, [Event.logOutOfRange legSection pulseLen])

/-- Source `putTibiaFemurWalkAnglesInCache`: insert under the raw key. -/
def putTibiaFemurWalkAnglesInCache (s : HexState) (coxaAngle : ℚ)
    (angles : ℚ × ℚ) : HexState :=
  { s with tibiaFemurWalkAnglesCache :=
      Function.update s.tibiaFemurWalkAnglesCache coxaAngle (some angles) }

/-- Source `getTibiaFemurWalkAnglesInCache`: raw-key lookup; the `["error"]` sentinel
of the source is modelled as `none`. -/
def getTibiaFemurWalkAnglesInCache (s : HexState) (coxaAngle : ℚ) :
    Option (ℚ × ℚ) :=
  s.tibiaFemurWalkAnglesCache coxaAngle

/-- The `coxaAngleOffsets` table inside `tibiaFemurWalkAngles` (`amountOffset = 20`). -/
def coxaAngleOffsets : Leg → ℚ
  | 0 => -20
  | 1 => 0
  | 2 => 20
  | 3 => 20
  | 4 => 0
  | 5 => -20

/-- Source `tibiaFemurWalkAngles`: apply the per-leg coxa offset, consult the cache,
and on a miss run the IK solve: `d = stanceWidth / cos(coxaAngle)`, newton
root-find for the femur angle seeded at `radians(femurStandStartAngle)`,
`tibiaAngle = acos((robotHeight + femurLen*sin(femur)) / tibiaLen) - femur`,
convert to degrees, insert in the cache and return `[femur, tibia]`.  The acos
domain check, division by zero, and newton non-convergence are the uncaught
exception paths of the source. -/
def tibiaFemurWalkAngles (ops : TrigOps) (s : HexState) (leg : Leg)
    (coxaAngleArg : ℚ) : HexState × List Event × Except PyExn (ℚ × ℚ) :=
  let coxaAngle := coxaAngleArg + coxaAngleOffsets leg
  match getTibiaFemurWalkAnglesInCache s coxaAngle with
  | some cacheResult => (s, [], .ok cacheResult)
  | none =>
    let evs := if s.walkSpeed ≠ 0 then [Event.logCalcNotice leg coxaAngle] else []
    if ops.cosDeg coxaAngle = 0 then
      (s, evs, .error .zeroDivisionError)
    else
      let d := s.stanceWidth / ops.cosDeg coxaAngle
      match ops.newton s.robotHeight d (ops.radians femurStandStartAngle) with
      | none => (s, evs, .error .runtimeError)
      | some femurAngle =>
        let acosArg := (s.robotHeight + femurLen * ops.mathSin femurAngle) / tibiaLen
        if acosArg < -1 ∨ 1 < acosArg then
          (s, evs, .error .valueError)
        else
          let femurAngleDeg := ops.degrees femurAngle
          let tibiaAngleDeg := ops.degrees (ops.mathAcosVal acosArg - femurAngle)
          (putTibiaFemurWalkAnglesInCache s coxaAngle (femurAngleDeg, tibiaAngleDeg),
           evs, .ok (femurAngleDeg, tibiaAngleDeg))

/-- Lines 306-328 of `walkServoAngles`: advance the phase by
`direction * stepAngle`, normalize it into `[0, 360)`, and if the normalized
phase is outside the `m`-signed power-stroke window, lock the leg, spawn the
deferred unlock, and flip the phase by `direction * 180`, normalizing again. -/
def walkAdvance (s : HexState) (leg : Leg) : HexState × List Event :=
  let dir := direction s.walkSpeed
  let phase1 := pymod (s.legWalkAngles leg + dir * stepAngle) 360
  let m : ℚ := if 0 ≤ phase1 then 1 else -1
  if m * 90 ≤ phase1 ∧ phase1 ≤ m * 270 then
    ({ s with legWalkAngles := Function.update s.legWalkAngles leg (pymod phase1 360) },
     [])
  else
    ({ s with
        legCommandLock := Function.update s.legCommandLock leg true,
        legWalkAngles := Function.update s.legWalkAngles leg
          (pymod (phase1 + dir * 180) 360) },
     [Event.spawnUnlock leg (2 * coxaWalkSweepAngle / servoMaxSpeed)])

/-- The `angles` dictionary returned by `walkServoAngles`. -/
structure WalkAngles where
  coxa : ℚ
  femur : ℚ
  tibia : ℚ
deriving DecidableEq

/-- Source `walkServoAngles`: advance the gait state for one leg, derive the coxa
sweep angle, resolve femur/tibia through the cache/solver, and pin the femur
to `femurStandStartAngle + 20` while the leg is locked. -/
def walkServoAngles (ops : TrigOps) (s : HexState) (leg : Leg) :
    HexState × List Event × Except PyExn WalkAngles :=
  match walkAdvance s leg with
  | (s1, evs1) =>
    let coxa := coxaWalkSweepAngle * ops.sinDeg (s1.legWalkAngles leg)
    match tibiaFemurWalkAngles ops s1 leg coxa with
    | (s2, evs2, .error e) => (s2, evs1 ++ evs2, .error e)
    | (s2, evs2, .ok ftAngles) =>
      (s2, evs1 ++ evs2,
       .ok { coxa := coxa
             femur := if s2.legCommandLock leg = true
                      then femurStandStartAngle + 20 else ftAngles.1
             tibia := ftAngles.2 })

/-- Source `legTimedUnlock`: sleep, clear the leg's lock, and run one extra
`walkServoAngles` cycle whose returned angles (and any exception, which would
only kill the timer thread) are discarded. -/
def legTimedUnlock (ops : TrigOps) (s : HexState) (leg : Leg) (sleepTime : ℚ) :
    HexState × List Event :=
  let s1 := { s with legCommandLock := Function.update s.legCommandLock leg false }
  match walkServoAngles ops s1 leg with
  | (s2, evs, _) => (s2, Event.sleep sleepTime :: evs)

/-- The body of the leg loop of `walk` for one leg: skip locked legs,
otherwise compute the angles and command all three servos; an exception
aborts the remaining iterations (it propagates out of `walk`). -/
def walkLegTick (ops : TrigOps) (acc : HexState × List Event × Option PyExn)
    (leg : Leg) : HexState × List Event × Option PyExn :=
  match acc with
  | (s, evs, some e) => (s, evs, some e)
  | (s, evs, none) =>
    if s.legCommandLock leg = false then
      match walkServoAngles ops s leg with
      | (s1, evs1, .error e) => (s1, evs ++ evs1, some e)
      | (s1, evs1, .ok angles) =>
        let r2 := moveServoToAngle s1 ⟨.coxa, leg⟩ angles.coxa
        let r3 := moveServoToAngle r2.1 ⟨.femur, leg⟩ angles.femur
        let r4 := moveServoToAngle r3.1 ⟨.tibia, leg⟩ angles.tibia
        (r4.1, evs ++ evs1 ++ r2.2 ++ r3.2 ++ r4.2, none)
    else (s, evs, none)

/-- Source `walk`: idle for speed 0; otherwise run the leg loop over legs 1-6 in
order and sleep for the speed-dependent interval. -/
def walk (ops : TrigOps) (s : HexState) : HexState × List Event × Option PyExn :=
  if s.walkSpeed = 0 then
    (s, [Event.sleep (1/10)], none)
  else
    match (List.finRange 6).foldl (walkLegTick ops) (s, [], none) with
    | (s1, evs, some e) => (s1, evs, some e)
    | (s1, evs, none) =>
      (s1, evs ++ [Event.sleep (stepTimeInterval * (stepIntervalMultiplier s1.walkSpeed : ℚ))],
       none)

/-! Concrete instances used by witnesses and counterexamples. -/

/-- Leg `'1'`. -/
def leg1 : Leg := 0

/-- Leg `'2'`. -/
def leg2 : Leg := 1

/-- A concrete oracle for the transcendental functions, used to evaluate the
control flow on concrete inputs (the gait-logic claims hold for every
oracle). -/
def trivOps : TrigOps where
  sinDeg := fun _ => 0
  cosDeg := fun _ => 1
  tanDeg := fun _ => 0
  mathSin := fun _ => 0
  mathAcosVal := fun _ => 0
  radians := fun x => x
  degrees := fun x => x
  newton := fun _ _ _ => some 0

/-- A freshly initialized state: empty servo-angle record, all legs unlocked,
the initial `generateLegWalkOffsets` phases, empty cache, `walkSpeed = 1`.
The kinematic constants are arbitrary sample values (the claims under test
hold for every value). -/
def baseState : HexState where
  testMode := false
  currentServoAngles := fun _ => none
  legCommandLock := fun _ => false
  walkSpeed := 1
  legWalkAngles := generateLegWalkOffsets
  tibiaFemurWalkAnglesCache := fun _ => none
  robotHeight := 0
  stanceWidth := 1
  tibiaIntersectWidth := 0

/-! Helper lemmas about the numeric primitives. -/

theorem ratFloor_eq_intFloor (q : ℚ) : q.floor = ⌊q⌋ := by
  rw [Rat.floor_def, Rat.floor_def']

theorem pymod_nonneg (x : ℚ) {y : ℚ} (hy : 0 < y) : 0 ≤ pymod x y := by
  unfold pymod
  rw [ratFloor_eq_intFloor, sub_nonneg]
  calc y * (⌊x / y⌋ : ℚ) ≤ y * (x / y) :=
        mul_le_mul_of_nonneg_left (Int.floor_le _) hy.le
    _ = x := by field_simp

theorem pymod_lt (x : ℚ) {y : ℚ} (hy : 0 < y) : pymod x y < y := by
  unfold pymod
  rw [ratFloor_eq_intFloor, sub_lt_iff_lt_add]
  have h1 : x / y < (⌊x / y⌋ : ℚ) + 1 := Int.lt_floor_add_one _
  calc x = y * (x / y) := by field_simp
    _ < y * ((⌊x / y⌋ : ℚ) + 1) := mul_lt_mul_of_pos_left h1 hy
    _ = y + y * (⌊x / y⌋ : ℚ) := by ring

theorem pymod_eval (x : ℚ) {y : ℚ} (n : ℤ) (h1 : (n : ℚ) * y ≤ x)
    (h2 : x < ((n : ℚ) + 1) * y) (hy : 0 < y) : pymod x y = x - y * n := by
  unfold pymod
  rw [ratFloor_eq_intFloor]
  have hf : ⌊x / y⌋ = n := by
    rw [Int.floor_eq_iff]
    constructor
    · rw [le_div_iff₀ hy]
      exact h1
    · rw [div_lt_iff₀ hy]
      exact h2
  rw [hf]

theorem pymod_eq_self (x : ℚ) {y : ℚ} (h1 : 0 ≤ x) (h2 : x < y) :
    pymod x y = x := by
  have hy : 0 < y := lt_of_le_of_lt h1 h2
  have := pymod_eval x 0 (by simpa using h1) (by simpa using h2) hy
  simpa using this

theorem pyInt_eval (q : ℚ) (n : ℤ) (h0 : 0 ≤ n) (h1 : (n : ℚ) ≤ q)
    (h2 : q < (n : ℚ) + 1) : pyInt q = n := by
  unfold pyInt
  have hq : ¬ q < 0 := by
    push_neg
    exact le_trans (by exact_mod_cast h0) h1
  rw [if_neg hq, ratFloor_eq_intFloor, Int.floor_eq_iff]
  exact ⟨h1, h2⟩

theorem pymod_pymod (x y : ℚ) (hy : 0 < y) : pymod (pymod x y) y = pymod x y :=
  pymod_eq_self _ (pymod_nonneg x hy) (pymod_lt x hy)

/-! Helper lemmas about the state-passing embedding. -/

theorem tibiaFemurWalkAngles_state (ops : TrigOps) (s : HexState) (leg : Leg)
    (c : ℚ) :
    ∃ cache, (tibiaFemurWalkAngles ops s leg c).1 =
      { s with tibiaFemurWalkAnglesCache := cache } := by
  unfold tibiaFemurWalkAngles putTibiaFemurWalkAnglesInCache
  rcases h : getTibiaFemurWalkAnglesInCache s (c + coxaAngleOffsets leg) with _ | v
  · simp only [h]
    split
    · exact ⟨s.tibiaFemurWalkAnglesCache, rfl⟩
    · rcases hn : ops.newton s.robotHeight
        (s.stanceWidth / ops.cosDeg (c + coxaAngleOffsets leg))
        (ops.radians femurStandStartAngle) with _ | fa
      · exact ⟨s.tibiaFemurWalkAnglesCache, rfl⟩
      · simp only
        split
        · exact ⟨s.tibiaFemurWalkAnglesCache, rfl⟩
        · exact ⟨_, rfl⟩
  · simp only [h]
    exact ⟨s.tibiaFemurWalkAnglesCache, rfl⟩

theorem tibiaFemurWalkAngles_events (ops : TrigOps) (s : HexState) (leg : Leg)
    (c : ℚ) :
    (tibiaFemurWalkAngles ops s leg c).2.1 = [] ∨
      (tibiaFemurWalkAngles ops s leg c).2.1 =
        [Event.logCalcNotice leg (c + coxaAngleOffsets leg)] := by
  unfold tibiaFemurWalkAngles
  rcases h : getTibiaFemurWalkAnglesInCache s (c + coxaAngleOffsets leg) with _ | v
  · simp only [h]
    by_cases hw : s.walkSpeed ≠ 0
    · rw [if_pos hw]
      split
      · right
        rfl
      · rcases hn : ops.newton s.robotHeight
          (s.stanceWidth / ops.cosDeg (c + coxaAngleOffsets leg))
          (ops.radians femurStandStartAngle) with _ | fa
        · right
          rfl
        · simp only
          split
          · right
            rfl
          · right
            rfl
    · rw [if_neg hw]
      split
      · left
        rfl
      · rcases hn : ops.newton s.robotHeight
          (s.stanceWidth / ops.cosDeg (c + coxaAngleOffsets leg))
          (ops.radians femurStandStartAngle) with _ | fa
        · left
          rfl
        · simp only
          split
          · left
            rfl
          · left
            rfl
  · simp [h]

/-- The result state of the in-window (power stroke) branch of `walkAdvance`. -/
def walkAdvanceKeep (s : HexState) (leg : Leg) (phase1 : ℚ) : HexState :=
  { s with legWalkAngles := Function.update s.legWalkAngles leg (pymod phase1 360) }

/-- The result state of the out-of-window (return stroke) branch of
`walkAdvance`. -/
def walkAdvanceLock (s : HexState) (leg : Leg) (phase1 : ℚ) : HexState :=
  { s with
      legCommandLock := Function.update s.legCommandLock leg true,
      legWalkAngles := Function.update s.legWalkAngles leg
        (pymod (phase1 + direction s.walkSpeed * 180) 360) }

theorem walkAdvance_eq (s : HexState) (leg : Leg) :
    walkAdvance s leg =
      if 90 ≤ pymod (s.legWalkAngles leg + direction s.walkSpeed * stepAngle) 360 ∧
         pymod (s.legWalkAngles leg + direction s.walkSpeed * stepAngle) 360 ≤ 270
      then (walkAdvanceKeep s leg
              (pymod (s.legWalkAngles leg + direction s.walkSpeed * stepAngle) 360),
            ([] : List Event))
      else (walkAdvanceLock s leg
              (pymod (s.legWalkAngles leg + direction s.walkSpeed * stepAngle) 360),
            [Event.spawnUnlock leg (2 * coxaWalkSweepAngle / servoMaxSpeed)]) := by
  have hp : (0:ℚ) ≤ pymod (s.legWalkAngles leg + direction s.walkSpeed * stepAngle) 360 :=
    pymod_nonneg _ (by norm_num)
  simp only [walkAdvance, walkAdvanceKeep, walkAdvanceLock, if_pos hp, one_mul]

theorem walkAdvance_phase_bounds (s : HexState) (leg : Leg) :
    0 ≤ (walkAdvance s leg).1.legWalkAngles leg ∧
      (walkAdvance s leg).1.legWalkAngles leg < 360 := by
  rw [walkAdvance_eq]
  split
  · simp only [walkAdvanceKeep, Function.update_same]
    exact ⟨pymod_nonneg _ (by norm_num), pymod_lt _ (by norm_num)⟩
  · simp only [walkAdvanceLock, Function.update_same]
    exact ⟨pymod_nonneg _ (by norm_num), pymod_lt _ (by norm_num)⟩

theorem walkAdvance_lock (s : HexState) (leg : Leg) :
    ((walkAdvance s leg).1.legCommandLock leg = true ↔
      (s.legCommandLock leg = true ∨
        ¬ (90 ≤ pymod (s.legWalkAngles leg + direction s.walkSpeed * stepAngle) 360 ∧
           pymod (s.legWalkAngles leg + direction s.walkSpeed * stepAngle) 360 ≤ 270))) := by
  rw [walkAdvance_eq]
  split
  · next hcond => simp [walkAdvanceKeep, hcond]
  · next hcond => simp [walkAdvanceLock, hcond, Function.update_same]

theorem walkAdvance_other_fields (s : HexState) (leg : Leg) :
    (walkAdvance s leg).1.testMode = s.testMode ∧
      (walkAdvance s leg).1.currentServoAngles = s.currentServoAngles ∧
      (walkAdvance s leg).1.walkSpeed = s.walkSpeed ∧
      (walkAdvance s leg).1.tibiaFemurWalkAnglesCache = s.tibiaFemurWalkAnglesCache := by
  rw [walkAdvance_eq]
  split
  · exact ⟨rfl, rfl, rfl, rfl⟩
  · exact ⟨rfl, rfl, rfl, rfl⟩

theorem walkAdvance_events (s : HexState) (leg : Leg) :
    (walkAdvance s leg).2 = [] ∨
      (walkAdvance s leg).2 =
        [Event.spawnUnlock leg (2 * coxaWalkSweepAngle / servoMaxSpeed)] := by
  rw [walkAdvance_eq]
  split
  · exact Or.inl rfl
  · exact Or.inr rfl

theorem walkServoAngles_decompose (ops : TrigOps) (s : HexState) (leg : Leg) :
    (walkServoAngles ops s leg).1 =
      (tibiaFemurWalkAngles ops (walkAdvance s leg).1 leg
        (coxaWalkSweepAngle * ops.sinDeg ((walkAdvance s leg).1.legWalkAngles leg))).1 ∧
    (walkServoAngles ops s leg).2.1 =
      (walkAdvance s leg).2 ++
        (tibiaFemurWalkAngles ops (walkAdvance s leg).1 leg
          (coxaWalkSweepAngle * ops.sinDeg ((walkAdvance s leg).1.legWalkAngles leg))).2.1 := by
  unfold walkServoAngles
  rcases hw : walkAdvance s leg with ⟨s1, evs1⟩
  rcases ht : tibiaFemurWalkAngles ops s1 leg
      (coxaWalkSweepAngle * ops.sinDeg (s1.legWalkAngles leg)) with ⟨s2, evs2, r⟩
  rcases r with e | ft
  · simp [hw, ht]
  · simp [hw, ht]

theorem walkServoAngles_state (ops : TrigOps) (s : HexState) (leg : Leg) :
    ∃ cache, (walkServoAngles ops s leg).1 =
      { (walkAdvance s leg).1 with tibiaFemurWalkAnglesCache := cache } := by
  obtain ⟨h1, _⟩ := walkServoAngles_decompose ops s leg
  obtain ⟨cache, hc⟩ := tibiaFemurWalkAngles_state ops (walkAdvance s leg).1 leg
    (coxaWalkSweepAngle * ops.sinDeg ((walkAdvance s leg).1.legWalkAngles leg))
  exact ⟨cache, h1.trans hc⟩

theorem walkServoAngles_lock (ops : TrigOps) (s : HexState) (leg : Leg) :
    (walkServoAngles ops s leg).1.legCommandLock leg =
      (walkAdvance s leg).1.legCommandLock leg := by
  obtain ⟨cache, hc⟩ := walkServoAngles_state ops s leg
  rw [hc]

theorem walkServoAngles_phase (ops : TrigOps) (s : HexState) (leg : Leg) :
    (walkServoAngles ops s leg).1.legWalkAngles leg =
      (walkAdvance s leg).1.legWalkAngles leg := by
  obtain ⟨cache, hc⟩ := walkServoAngles_state ops s leg
  rw [hc]

theorem walkServoAngles_currentServoAngles (ops : TrigOps) (s : HexState) (leg : Leg) :
    (walkServoAngles ops s leg).1.currentServoAngles = s.currentServoAngles := by
  obtain ⟨cache, hc⟩ := walkServoAngles_state ops s leg
  rw [hc]
  exact (walkAdvance_other_fields s leg).2.1

theorem walkServoAngles_no_pwm (ops : TrigOps) (s : HexState) (leg : Leg) :
    (walkServoAngles ops s leg).2.1.filter Event.isSetPWM = [] := by
  obtain ⟨_, h2⟩ := walkServoAngles_decompose ops s leg
  rw [h2, List.filter_append]
  rcases walkAdvance_events s leg with ha | ha <;>
    rcases tibiaFemurWalkAngles_events ops (walkAdvance s leg).1 leg
      (coxaWalkSweepAngle * ops.sinDeg ((walkAdvance s leg).1.legWalkAngles leg)) with hb | hb <;>
    simp [ha, hb, Event.isSetPWM]

theorem legTimedUnlock_eq (ops : TrigOps) (s : HexState) (leg : Leg) (t : ℚ) :
    legTimedUnlock ops s leg t =
      ((walkServoAngles ops
          { s with legCommandLock := Function.update s.legCommandLock leg false } leg).1,
       Event.sleep t ::
        (walkServoAngles ops
          { s with legCommandLock := Function.update s.legCommandLock leg false } leg).2.1) := by
  unfold legTimedUnlock
  rcases hw : walkServoAngles ops
      { s with legCommandLock := Function.update s.legCommandLock leg false } leg
    with ⟨s2, evs, r⟩
  simp [hw]

theorem pyRound_eval_down (q : ℚ) (n : ℤ) (h1 : (n : ℚ) ≤ q)
    (h2 : q < (n : ℚ) + 1/2) : pyRound q = n := by
  unfold pyRound
  rw [ratFloor_eq_intFloor]
  have hf : ⌊q⌋ = n := by
    rw [Int.floor_eq_iff]
    exact ⟨h1, lt_of_lt_of_le h2 (by norm_num)⟩
  rw [hf, if_pos (by linarith)]

/-! The claims. -/

/-- C7: after any advance of the gait state machine for a leg (including the
180-degree phase flip applied on a stroke transition), the stored walk phase
of that leg lies in `[0, 360)`. -/
theorem c7_phase_always_normalized (ops : TrigOps) (s : HexState) (leg : Leg) :
    0 ≤ (walkServoAngles ops s leg).1.legWalkAngles leg ∧
      (walkServoAngles ops s leg).1.legWalkAngles leg < 360 := by
  rw [walkServoAngles_phase]
  exact walkAdvance_phase_bounds s leg

/-- C1 (amended): the power-stroke classification does not depend on the
walking direction.  The sign `m` of the source is computed from the
normalized phase, which is never negative, so for either direction a leg
advanced by `walkServoAngles` ends up locked exactly when it was already
locked or its freshly normalized phase lies outside `[90, 270]`. -/
theorem c1_power_window_ignores_direction (ops : TrigOps) (s : HexState) (leg : Leg) :
    ((walkServoAngles ops s leg).1.legCommandLock leg = true ↔
      (s.legCommandLock leg = true ∨
        ¬ (90 ≤ pymod (s.legWalkAngles leg + direction s.walkSpeed * stepAngle) 360 ∧
           pymod (s.legWalkAngles leg + direction s.walkSpeed * stepAngle) 360 ≤ 270))) := by
  rw [walkServoAngles_lock]
  exact walkAdvance_lock s leg

/-- A reverse-walking state: `walkSpeed = -1` and leg 1's phase at 186, so the
next advance lands exactly on phase 180. -/
def sC1 : HexState :=
  { baseState with
      walkSpeed := -1,
      legWalkAngles := Function.update generateLegWalkOffsets leg1 186 }

/-- C1 counterexample: walking in reverse (`direction = -1`), leg 1 reaches
normalized phase 180, which is NOT in the complementary window
`[0,90) ∪ (270,360)` that the claim assigns to the reverse direction - yet
the code classifies it as power stroke and does not lock the leg. -/
theorem c1_counterexample :
    direction sC1.walkSpeed = -1 ∧
    (walkServoAngles trivOps sC1 leg1).1.legWalkAngles leg1 = 180 ∧
    ¬ (((0:ℚ) ≤ 180 ∧ (180:ℚ) < 90) ∨ ((270:ℚ) < 180 ∧ (180:ℚ) < 360)) ∧
    (walkServoAngles trivOps sC1 leg1).1.legCommandLock leg1 = false := by
  have hdir : direction sC1.walkSpeed = -1 := by
    have : sC1.walkSpeed = -1 := rfl
    rw [this]
    unfold direction
    rw [if_pos (by norm_num)]
  have h186 : sC1.legWalkAngles leg1 = 186 := by
    show Function.update generateLegWalkOffsets leg1 186 leg1 = 186
    rw [Function.update_same]
  have harg : sC1.legWalkAngles leg1 + direction sC1.walkSpeed * stepAngle = 180 := by
    rw [h186, hdir]
    norm_num [stepAngle, walkResolution]
  have hphase1 :
      pymod (sC1.legWalkAngles leg1 + direction sC1.walkSpeed * stepAngle) 360 = 180 := by
    rw [harg]
    exact pymod_eq_self _ (by norm_num) (by norm_num)
  have hadv : walkAdvance sC1 leg1 = (walkAdvanceKeep sC1 leg1 180, ([] : List Event)) := by
    rw [walkAdvance_eq, hphase1, if_pos (by norm_num : (90:ℚ) ≤ 180 ∧ (180:ℚ) ≤ 270)]
  refine ⟨hdir, ?_, by norm_num, ?_⟩
  · rw [walkServoAngles_phase, hadv]
    show Function.update sC1.legWalkAngles leg1 (pymod 180 360) leg1 = 180
    rw [Function.update_same]
    exact pymod_eq_self _ (by norm_num) (by norm_num)
  · rw [walkServoAngles_lock, hadv]
    rfl

/-- C10: the deferred unlock callback `legTimedUnlock` never issues an
actuator command: it emits no `setPWM` event (the angle set computed by its
extra `walkServoAngles` cycle is discarded) and leaves the record of
currently commanded servo angles untouched. -/
theorem c10_unlock_moves_no_servo (ops : TrigOps) (s : HexState) (leg : Leg) (t : ℚ) :
    (legTimedUnlock ops s leg t).1.currentServoAngles = s.currentServoAngles ∧
    (legTimedUnlock ops s leg t).2.filter Event.isSetPWM = [] := by
  rw [legTimedUnlock_eq]
  constructor
  · exact walkServoAngles_currentServoAngles ops _ leg
  · simp [Event.isSetPWM, walkServoAngles_no_pwm]

/-- C3: for every joint and commanded angle whose linearly mapped pulse
length falls outside `[minPulseLen, maxPulseLen]`, `moveServoToAngle` does
not call the actuator, reports the rejection with the out-of-range log line,
and leaves the entire state - in particular the recorded current angle for
that joint - unchanged. -/
theorem c3_out_of_range_pulse_dropped (s : HexState) (legSection : Joint) (angle : ℚ)
    (h : getPulseLenFromAngle legSection angle < minPulseLen ∨
         maxPulseLen < getPulseLenFromAngle legSection angle) :
    moveServoToAngle s legSection angle =
      (s, [Event.logOutOfRange legSection (getPulseLenFromAngle legSection angle)]) := by
  unfold moveServoToAngle
  rw [if_neg]
  rcases h with h | h
  · exact fun hc => absurd hc.1 (not_le.mpr h)
  · exact fun hc => absurd hc.2 (not_le.mpr h)

/-- The `legSection` string `"coxa1"`. -/
def jointCoxa1 : Joint := ⟨.coxa, leg1⟩

theorem c3_witness :
    (getPulseLenFromAngle jointCoxa1 1000 < minPulseLen ∨
      maxPulseLen < getPulseLenFromAngle jointCoxa1 1000) ∧
    moveServoToAngle baseState jointCoxa1 1000 =
      (baseState,
       [Event.logOutOfRange jointCoxa1 (getPulseLenFromAngle jointCoxa1 1000)]) := by
  have hp : getPulseLenFromAngle jointCoxa1 1000 = -2313 := by
    have hsp : servoParameters jointCoxa1 = ⟨376, 255, 0, 45⟩ := rfl
    unfold getPulseLenFromAngle
    rw [hsp]
    have harg : ((255:ℤ) - (376:ℤ) : ℚ) / ((45:ℤ) - (0:ℤ) : ℚ) * 1000 +
        (((376:ℤ) : ℚ) - ((255:ℤ) - (376:ℤ) : ℚ) / ((45:ℤ) - (0:ℤ) : ℚ) * ((0:ℤ) : ℚ)) =
        -20816/9 := by
      push_cast
      norm_num
    push_cast
    push_cast at harg
    rw [harg]
    exact pyRound_eval_down _ (-2313) (by norm_num) (by norm_num)
  have hlt : getPulseLenFromAngle jointCoxa1 1000 < minPulseLen ∨
      maxPulseLen < getPulseLenFromAngle jointCoxa1 1000 := by
    rw [hp]
    left
    norm_num [minPulseLen]
  exact ⟨hlt, c3_out_of_range_pulse_dropped baseState jointCoxa1 1000 hlt⟩

/-- C4: when an unlocked leg is advanced to a normalized phase outside the
power-stroke window `[90, 270]` (a transition into return stroke), the leg's
lock flag is set, its phase is flipped by `direction * 180` (mod 360), and a
deferred unlock with delay `2 * coxaWalkSweepAngle / servoMaxSpeed` is
spawned; when that unlock fires, `legTimedUnlock` clears the lock flag and
performs exactly one extra advance-and-resolve (`walkServoAngles`) cycle for
that leg. -/
theorem c4_return_stroke_lock_flip_schedule (ops : TrigOps) (s : HexState) (leg : Leg)
    (hunlocked : s.legCommandLock leg = false)
    (hout : ¬ (90 ≤ pymod (s.legWalkAngles leg + direction s.walkSpeed * stepAngle) 360 ∧
               pymod (s.legWalkAngles leg + direction s.walkSpeed * stepAngle) 360 ≤ 270)) :
    (walkServoAngles ops s leg).1.legCommandLock leg = true ∧
    (walkServoAngles ops s leg).1.legWalkAngles leg =
      pymod (pymod (s.legWalkAngles leg + direction s.walkSpeed * stepAngle) 360 +
        direction s.walkSpeed * 180) 360 ∧
    Event.spawnUnlock leg (2 * coxaWalkSweepAngle / servoMaxSpeed) ∈
      (walkServoAngles ops s leg).2.1 ∧
    (∀ (ops2 : TrigOps) (s2 : HexState) (t : ℚ),
      (legTimedUnlock ops2 s2 leg t).1 =
        (walkServoAngles ops2
          { s2 with legCommandLock := Function.update s2.legCommandLock leg false } leg).1 ∧
      (legTimedUnlock ops2 s2 leg t).2 =
        Event.sleep t ::
          (walkServoAngles ops2
            { s2 with legCommandLock := Function.update s2.legCommandLock leg false } leg).2.1) := by
  have hadv : walkAdvance s leg =
      (walkAdvanceLock s leg
        (pymod (s.legWalkAngles leg + direction s.walkSpeed * stepAngle) 360),
       [Event.spawnUnlock leg (2 * coxaWalkSweepAngle / servoMaxSpeed)]) := by
    rw [walkAdvance_eq, if_neg hout]
  refine ⟨?_, ?_, ?_, ?_⟩
  · rw [walkServoAngles_lock, hadv]
    show Function.update s.legCommandLock leg true leg = true
    rw [Function.update_same]
  · rw [walkServoAngles_phase, hadv]
    show Function.update s.legWalkAngles leg _ leg = _
    rw [Function.update_same]
  · obtain ⟨_, h2⟩ := walkServoAngles_decompose ops s leg
    rw [h2, hadv]
    exact List.mem_append_left _ (List.mem_singleton_self _)
  · intro ops2 s2 t
    rw [legTimedUnlock_eq]
    exact ⟨rfl, rfl⟩

/-- A forward-walking state with leg 2's phase at 66, so the next advance
lands on 72, outside the power-stroke window. -/
def sOut : HexState :=
  { baseState with legWalkAngles := Function.update generateLegWalkOffsets leg2 66 }

theorem c4_witness :
    (walkServoAngles trivOps sOut leg2).1.legCommandLock leg2 = true ∧
    Event.spawnUnlock leg2 (2 * coxaWalkSweepAngle / servoMaxSpeed) ∈
      (walkServoAngles trivOps sOut leg2).2.1 := by
  have hdir : direction sOut.walkSpeed = 1 := by
    have : sOut.walkSpeed = 1 := rfl
    rw [this]
    unfold direction
    rw [if_neg (by norm_num), if_neg (by norm_num)]
  have h66 : sOut.legWalkAngles leg2 = 66 := by
    show Function.update generateLegWalkOffsets leg2 66 leg2 = 66
    rw [Function.update_same]
  have hphase1 :
      pymod (sOut.legWalkAngles leg2 + direction sOut.walkSpeed * stepAngle) 360 = 72 := by
    rw [h66, hdir]
    have : (66 : ℚ) + 1 * stepAngle = 72 := by
      norm_num [stepAngle, walkResolution]
    rw [this]
    exact pymod_eq_self _ (by norm_num) (by norm_num)
  have hout : ¬ (90 ≤ pymod (sOut.legWalkAngles leg2 + direction sOut.walkSpeed * stepAngle) 360 ∧
      pymod (sOut.legWalkAngles leg2 + direction sOut.walkSpeed * stepAngle) 360 ≤ 270) := by
    rw [hphase1]
    norm_num
  have h := c4_return_stroke_lock_flip_schedule trivOps sOut leg2 rfl hout
  exact ⟨h.1, h.2.2.1⟩

/-- C5 counterexample: at `walkSpeed = 15/16` (within `[-1, 1]`), the raw
scale is `int((1 - 15/16) * 80) = 5`, which is positive, so it is returned
as-is - strictly below the servo-speed-derived floor
`int(minTimeInterval / stepTimeInterval) + 5 = 9` that the claim asserts as
a lower bound for every speed. -/
theorem c5_counterexample :
    |(15/16 : ℚ)| ≤ 1 ∧
    stepIntervalMultiplier (15/16) <
      pyInt (2 * coxaWalkSweepAngle / servoMaxSpeed / walkResolution / stepTimeInterval)
        + 5 := by
  have hfloor :
      pyInt (2 * coxaWalkSweepAngle / servoMaxSpeed / walkResolution / stepTimeInterval) = 4 := by
    have : (2 * coxaWalkSweepAngle / servoMaxSpeed / walkResolution / stepTimeInterval : ℚ) =
        77/18 := by
      norm_num [coxaWalkSweepAngle, servoMaxSpeed, walkResolution, stepTimeInterval]
    rw [this]
    exact pyInt_eval _ 4 (by norm_num) (by norm_num) (by norm_num)
  have hscale : pyInt ((1 - |(15/16 : ℚ)|) * ((80 : ℤ) : ℚ)) = 5 := by
    have : ((1 : ℚ) - |(15/16 : ℚ)|) * ((80 : ℤ) : ℚ) = 5 := by
      rw [abs_of_pos (by norm_num)]
      push_cast
      norm_num
    rw [this]
    exact pyInt_eval _ 5 (by norm_num) (by norm_num) (by norm_num)
  have hmult : stepIntervalMultiplier (15/16) = 5 := by
    simp only [stepIntervalMultiplier]
    rw [hscale, if_neg (by norm_num)]
  refine ⟨by rw [abs_of_nonneg (by norm_num : (0:ℚ) ≤ 15/16)]; norm_num, ?_⟩
  rw [hmult, hfloor]
  norm_num

/-- C5 (amended): `stepIntervalMultiplier` at speed 0 is strictly greater
than at speeds `±1`; the servo-speed-derived floor
`int(minTimeInterval / stepTimeInterval) + 5` is returned exactly when the
raw scale `int((1 - |speed|) * 80)` is nonpositive - which, for speeds in
`[-1, 1]`, happens exactly when `|speed| > 79/80`; for a positive raw scale
(all `|speed| ≤ 79/80`) the raw scale itself is returned, even when it is
below that floor. -/
theorem c5_idle_slower_floor_iff_scale_nonpositive (speed : ℚ) (h : |speed| ≤ 1) :
    stepIntervalMultiplier 0 > stepIntervalMultiplier 1 ∧
    stepIntervalMultiplier 0 > stepIntervalMultiplier (-1) ∧
    (pyInt ((1 - |speed|) * 80) ≤ 0 ↔ 79/80 < |speed|) ∧
    (pyInt ((1 - |speed|) * 80) ≤ 0 →
      stepIntervalMultiplier speed =
        pyInt (2 * coxaWalkSweepAngle / servoMaxSpeed / walkResolution / stepTimeInterval)
          + 5) ∧
    (0 < pyInt ((1 - |speed|) * 80) →
      stepIntervalMultiplier speed = pyInt ((1 - |speed|) * 80)) := by
  have hcast : ∀ w : ℚ, (1 - |w|) * ((80 : ℤ) : ℚ) = (1 - |w|) * 80 := by
    intro w
    push_cast
    ring
  have hq0 : (0 : ℚ) ≤ (1 - |speed|) * 80 :=
    mul_nonneg (by linarith) (by norm_num)
  have hpy : pyInt ((1 - |speed|) * 80) = ⌊(1 - |speed|) * 80⌋ := by
    unfold pyInt
    rw [if_neg (not_lt.mpr hq0), ratFloor_eq_intFloor]
  have hexpand : ((1 - |speed|) * 80 : ℚ) = 80 - 80 * |speed| := by ring
  have hiff : pyInt ((1 - |speed|) * 80) ≤ 0 ↔ 79/80 < |speed| := by
    rw [hpy]
    constructor
    · intro hle
      have hlt1 : ⌊(1 - |speed|) * 80⌋ < 1 := by omega
      have hq1 : ((1 - |speed|) * 80 : ℚ) < 1 := by
        have := Int.floor_lt.mp hlt1
        exact_mod_cast this
      linarith [hexpand]
    · intro hgt
      have hq1 : ((1 - |speed|) * 80 : ℚ) < 1 := by
        linarith [hexpand]
      have hlt1 : ⌊(1 - |speed|) * 80⌋ < 1 :=
        Int.floor_lt.mpr (by exact_mod_cast hq1)
      omega
  have hfloor :
      pyInt (2 * coxaWalkSweepAngle / servoMaxSpeed / walkResolution / stepTimeInterval) = 4 := by
    have : (2 * coxaWalkSweepAngle / servoMaxSpeed / walkResolution / stepTimeInterval : ℚ) =
        77/18 := by
      norm_num [coxaWalkSweepAngle, servoMaxSpeed, walkResolution, stepTimeInterval]
    rw [this]
    exact pyInt_eval _ 4 (by norm_num) (by norm_num) (by norm_num)
  have h0 : stepIntervalMultiplier 0 = 80 := by
    simp only [stepIntervalMultiplier]
    rw [hcast]
    have : ((1 : ℚ) - |(0 : ℚ)|) * 80 = 80 := by norm_num
    rw [this, pyInt_eval _ 80 (by norm_num) (by norm_num) (by norm_num),
      if_neg (by norm_num)]
  have h1 : stepIntervalMultiplier 1 = 9 := by
    simp only [stepIntervalMultiplier]
    rw [hcast]
    have : ((1 : ℚ) - |(1 : ℚ)|) * 80 = 0 := by norm_num
    rw [this, pyInt_eval _ 0 (by norm_num) (by norm_num) (by norm_num),
      if_pos (by norm_num), hfloor]
    decide
  have hm1 : stepIntervalMultiplier (-1) = 9 := by
    simp only [stepIntervalMultiplier]
    rw [hcast]
    have : ((1 : ℚ) - |(-1 : ℚ)|) * 80 = 0 := by norm_num
    rw [this, pyInt_eval _ 0 (by norm_num) (by norm_num) (by norm_num),
      if_pos (by norm_num), hfloor]
    decide
  refine ⟨by rw [h0, h1]; norm_num, by rw [h0, hm1]; norm_num, hiff, ?_, ?_⟩
  · intro hle
    simp only [stepIntervalMultiplier]
    rw [hcast, if_pos hle]
  · intro hpos
    simp only [stepIntervalMultiplier]
    rw [hcast, if_neg (not_le.mpr hpos)]

theorem c5_witness :
    |(1 : ℚ)| ≤ 1 ∧ stepIntervalMultiplier 1 =
      pyInt (2 * coxaWalkSweepAngle / servoMaxSpeed / walkResolution / stepTimeInterval)
        + 5 := by
  refine ⟨by rw [abs_one], ?_⟩
  have h := c5_idle_slower_floor_iff_scale_nonpositive 1 (by rw [abs_one])
  refine h.2.2.2.1 ?_
  have : ((1 : ℚ) - |(1 : ℚ)|) * 80 = 0 := by norm_num
  rw [this, pyInt_eval _ 0 (by norm_num) (by norm_num) (by norm_num)]

theorem walkServoAngles_ok_iff (ops : TrigOps) (s : HexState) (leg : Leg)
    (a : WalkAngles) :
    (walkServoAngles ops s leg).2.2 = Except.ok a ↔
      ∃ ft : ℚ × ℚ,
        (tibiaFemurWalkAngles ops (walkAdvance s leg).1 leg
          (coxaWalkSweepAngle * ops.sinDeg ((walkAdvance s leg).1.legWalkAngles leg))).2.2 =
            Except.ok ft ∧
        a = { coxa := coxaWalkSweepAngle * ops.sinDeg ((walkAdvance s leg).1.legWalkAngles leg)
              femur := if (tibiaFemurWalkAngles ops (walkAdvance s leg).1 leg
                  (coxaWalkSweepAngle *
                    ops.sinDeg ((walkAdvance s leg).1.legWalkAngles leg))).1.legCommandLock leg
                  = true
                then femurStandStartAngle + 20 else ft.1
              tibia := ft.2 } := by
  unfold walkServoAngles
  rcases hw : walkAdvance s leg with ⟨s1, evs1⟩
  rcases ht : tibiaFemurWalkAngles ops s1 leg
      (coxaWalkSweepAngle * ops.sinDeg (s1.legWalkAngles leg)) with ⟨s2, evs2, r⟩
  rcases r with e | ft
  · simp [hw, ht]
  · simp only [hw, ht]
    constructor
    · intro h
      refine ⟨ft, rfl, ?_⟩
      exact (Except.ok.injEq _ _).mp h.symm
    · rintro ⟨ft2, hft2, ha⟩
      have : ft2 = ft := by
        have := (Except.ok.injEq _ _).mp hft2
        exact this.symm
      subst this
      rw [ha]

/-- C8: on any tick whose resolved angle set comes back with the leg's lock
flag set, the femur command equals `femurStandStartAngle + 20` (the fixed
lift angle) rather than the raw IK result, while the coxa command is the
sweep angle of the advanced phase and the tibia command is the raw IK
output. -/
theorem c8_locked_femur_pinned (ops : TrigOps) (s : HexState) (leg : Leg)
    (a : WalkAngles)
    (hok : (walkServoAngles ops s leg).2.2 = Except.ok a)
    (hlock : (walkServoAngles ops s leg).1.legCommandLock leg = true) :
    a.femur = femurStandStartAngle + 20 ∧
    a.coxa = coxaWalkSweepAngle * ops.sinDeg ((walkAdvance s leg).1.legWalkAngles leg) ∧
    ∃ ft : ℚ × ℚ,
      (tibiaFemurWalkAngles ops (walkAdvance s leg).1 leg a.coxa).2.2 = Except.ok ft ∧
      a.tibia = ft.2 := by
  obtain ⟨ft, hft, ha⟩ := (walkServoAngles_ok_iff ops s leg a).mp hok
  have hlock2 : (tibiaFemurWalkAngles ops (walkAdvance s leg).1 leg
      (coxaWalkSweepAngle *
        ops.sinDeg ((walkAdvance s leg).1.legWalkAngles leg))).1.legCommandLock leg = true := by
    rw [← (walkServoAngles_decompose ops s leg).1]
    exact hlock
  subst ha
  refine ⟨?_, rfl, ft, ?_, rfl⟩
  · show (if _ = true then femurStandStartAngle + 20 else ft.1) = femurStandStartAngle + 20
    rw [if_pos hlock2]
  · exact hft

/-! Evaluation lemmas for `tibiaFemurWalkAngles` on explicit inputs. -/

theorem tfwa_eval_miss (ops : TrigOps) (s : HexState) (leg : Leg) (c : ℚ)
    (hcache : s.tibiaFemurWalkAnglesCache (c + coxaAngleOffsets leg) = none)
    (hcos : ops.cosDeg (c + coxaAngleOffsets leg) ≠ 0)
    (femurAngle : ℚ)
    (hnewton : ops.newton s.robotHeight
      (s.stanceWidth / ops.cosDeg (c + coxaAngleOffsets leg))
      (ops.radians femurStandStartAngle) = some femurAngle)
    (hdom : ¬ ((s.robotHeight + femurLen * ops.mathSin femurAngle) / tibiaLen < -1 ∨
               1 < (s.robotHeight + femurLen * ops.mathSin femurAngle) / tibiaLen)) :
    tibiaFemurWalkAngles ops s leg c =
      (putTibiaFemurWalkAnglesInCache s (c + coxaAngleOffsets leg)
        (ops.degrees femurAngle,
         ops.degrees (ops.mathAcosVal
           ((s.robotHeight + femurLen * ops.mathSin femurAngle) / tibiaLen) - femurAngle)),
       (if s.walkSpeed ≠ 0 then [Event.logCalcNotice leg (c + coxaAngleOffsets leg)] else []),
       Except.ok (ops.degrees femurAngle,
         ops.degrees (ops.mathAcosVal
           ((s.robotHeight + femurLen * ops.mathSin femurAngle) / tibiaLen) - femurAngle))) := by
  unfold tibiaFemurWalkAngles getTibiaFemurWalkAnglesInCache
  simp only [hcache, hnewton, if_neg hcos, if_neg hdom]

theorem tfwa_eval_newton_error (ops : TrigOps) (s : HexState) (leg : Leg) (c : ℚ)
    (hcache : s.tibiaFemurWalkAnglesCache (c + coxaAngleOffsets leg) = none)
    (hcos : ops.cosDeg (c + coxaAngleOffsets leg) ≠ 0)
    (hnewton : ops.newton s.robotHeight
      (s.stanceWidth / ops.cosDeg (c + coxaAngleOffsets leg))
      (ops.radians femurStandStartAngle) = none) :
    tibiaFemurWalkAngles ops s leg c =
      (s,
       (if s.walkSpeed ≠ 0 then [Event.logCalcNotice leg (c + coxaAngleOffsets leg)] else []),
       Except.error PyExn.runtimeError) := by
  unfold tibiaFemurWalkAngles getTibiaFemurWalkAnglesInCache
  simp only [hcache, hnewton, if_neg hcos]

theorem tfwa_eval_acos_error (ops : TrigOps) (s : HexState) (leg : Leg) (c : ℚ)
    (hcache : s.tibiaFemurWalkAnglesCache (c + coxaAngleOffsets leg) = none)
    (hcos : ops.cosDeg (c + coxaAngleOffsets leg) ≠ 0)
    (femurAngle : ℚ)
    (hnewton : ops.newton s.robotHeight
      (s.stanceWidth / ops.cosDeg (c + coxaAngleOffsets leg))
      (ops.radians femurStandStartAngle) = some femurAngle)
    (hdom : (s.robotHeight + femurLen * ops.mathSin femurAngle) / tibiaLen < -1 ∨
            1 < (s.robotHeight + femurLen * ops.mathSin femurAngle) / tibiaLen) :
    tibiaFemurWalkAngles ops s leg c =
      (s,
       (if s.walkSpeed ≠ 0 then [Event.logCalcNotice leg (c + coxaAngleOffsets leg)] else []),
       Except.error PyExn.valueError) := by
  unfold tibiaFemurWalkAngles getTibiaFemurWalkAnglesInCache
  simp only [hcache, hnewton, if_neg hcos, if_pos hdom]

theorem c8_witness :
    (⟨0, femurStandStartAngle + 20, 0⟩ : WalkAngles).femur = femurStandStartAngle + 20 ∧
    (⟨0, femurStandStartAngle + 20, 0⟩ : WalkAngles).coxa =
      coxaWalkSweepAngle * trivOps.sinDeg ((walkAdvance sOut leg2).1.legWalkAngles leg2) ∧
    ∃ ft : ℚ × ℚ,
      (tibiaFemurWalkAngles trivOps (walkAdvance sOut leg2).1 leg2
        (⟨0, femurStandStartAngle + 20, 0⟩ : WalkAngles).coxa).2.2 = Except.ok ft ∧
      (⟨0, femurStandStartAngle + 20, 0⟩ : WalkAngles).tibia = ft.2 := by
  have hdir : direction sOut.walkSpeed = 1 := by
    have hws : sOut.walkSpeed = 1 := rfl
    rw [hws]
    unfold direction
    rw [if_neg (by norm_num), if_neg (by norm_num)]
  have h66 : sOut.legWalkAngles leg2 = 66 := by
    show Function.update generateLegWalkOffsets leg2 66 leg2 = 66
    rw [Function.update_same]
  have hphase1 :
      pymod (sOut.legWalkAngles leg2 + direction sOut.walkSpeed * stepAngle) 360 = 72 := by
    rw [h66, hdir]
    have h72 : (66 : ℚ) + 1 * stepAngle = 72 := by
      norm_num [stepAngle, walkResolution]
    rw [h72]
    exact pymod_eq_self _ (by norm_num) (by norm_num)
  have hadv : walkAdvance sOut leg2 =
      (walkAdvanceLock sOut leg2 72,
       [Event.spawnUnlock leg2 (2 * coxaWalkSweepAngle / servoMaxSpeed)]) := by
    rw [walkAdvance_eq, hphase1, if_neg (by norm_num)]
  have hs1 : (walkAdvance sOut leg2).1 = walkAdvanceLock sOut leg2 72 := by
    rw [hadv]
  have hphase2 : (walkAdvanceLock sOut leg2 72).legWalkAngles leg2 = 252 := by
    show Function.update sOut.legWalkAngles leg2
      (pymod (72 + direction sOut.walkSpeed * 180) 360) leg2 = 252
    rw [Function.update_same, hdir]
    have h252 : (72 : ℚ) + 1 * 180 = 252 := by norm_num
    rw [h252]
    exact pymod_eq_self _ (by norm_num) (by norm_num)
  have hlocks1 : (walkAdvanceLock sOut leg2 72).legCommandLock leg2 = true := by
    show Function.update sOut.legCommandLock leg2 true leg2 = true
    rw [Function.update_same]
  have hcoxa : coxaWalkSweepAngle *
      trivOps.sinDeg ((walkAdvance sOut leg2).1.legWalkAngles leg2) = 0 := by
    rw [hs1, hphase2]
    have hsd : trivOps.sinDeg 252 = 0 := rfl
    rw [hsd, mul_zero]
  have harg : ((walkAdvanceLock sOut leg2 72).robotHeight +
      femurLen * trivOps.mathSin 0) / tibiaLen = 0 := by
    have h1 : (walkAdvanceLock sOut leg2 72).robotHeight = 0 := rfl
    have h2 : trivOps.mathSin 0 = 0 := rfl
    rw [h1, h2, mul_zero, add_zero, zero_div]
  have hftRaw := tfwa_eval_miss trivOps (walkAdvanceLock sOut leg2 72) leg2 0 rfl
    (by
      have hcd : trivOps.cosDeg (0 + coxaAngleOffsets leg2) = 1 := rfl
      rw [hcd]
      norm_num)
    0 rfl
    (by
      rw [harg]
      norm_num)
  have hft : (tibiaFemurWalkAngles trivOps (walkAdvanceLock sOut leg2 72) leg2 0).2.2 =
      Except.ok ((0 : ℚ), (0 : ℚ)) := by
    rw [hftRaw]
    show Except.ok _ = Except.ok _
    rw [harg]
    simp [trivOps]
  have hlockft : (tibiaFemurWalkAngles trivOps (walkAdvanceLock sOut leg2 72) leg2
      0).1.legCommandLock leg2 = true := by
    rw [hftRaw]
    exact hlocks1
  have hft2 : (tibiaFemurWalkAngles trivOps (walkAdvance sOut leg2).1 leg2
      (coxaWalkSweepAngle *
        trivOps.sinDeg ((walkAdvance sOut leg2).1.legWalkAngles leg2))).2.2 =
      Except.ok ((0 : ℚ), (0 : ℚ)) := by
    rw [hcoxa, hs1]
    exact hft
  have hlockft2 : (tibiaFemurWalkAngles trivOps (walkAdvance sOut leg2).1 leg2
      (coxaWalkSweepAngle *
        trivOps.sinDeg ((walkAdvance sOut leg2).1.legWalkAngles leg2))).1.legCommandLock leg2
      = true := by
    rw [hcoxa, hs1]
    exact hlockft
  have ha : (⟨0, femurStandStartAngle + 20, 0⟩ : WalkAngles) =
      { coxa := coxaWalkSweepAngle *
          trivOps.sinDeg ((walkAdvance sOut leg2).1.legWalkAngles leg2)
        femur := if (tibiaFemurWalkAngles trivOps (walkAdvance sOut leg2).1 leg2
            (coxaWalkSweepAngle *
              trivOps.sinDeg ((walkAdvance sOut leg2).1.legWalkAngles leg2))).1.legCommandLock
            leg2 = true
          then femurStandStartAngle + 20 else ((0 : ℚ), (0 : ℚ)).1
        tibia := ((0 : ℚ), (0 : ℚ)).2 } := by
    rw [if_pos hlockft2, hcoxa]
  have hok : (walkServoAngles trivOps sOut leg2).2.2 =
      Except.ok (⟨0, femurStandStartAngle + 20, 0⟩ : WalkAngles) :=
    (walkServoAngles_ok_iff trivOps sOut leg2 _).mpr ⟨((0 : ℚ), (0 : ℚ)), hft2, ha⟩
  have hlockMain : (walkServoAngles trivOps sOut leg2).1.legCommandLock leg2 = true := by
    rw [walkServoAngles_lock, hs1]
    exact hlocks1
  exact c8_locked_femur_pinned trivOps sOut leg2 ⟨0, femurStandStartAngle + 20, 0⟩
    hok hlockMain

/-- The oracle with `math.sin` returning 1, so the acos argument lands above
1 when the robot height is large. -/
def opsAcosBad : TrigOps := { trivOps with mathSin := fun _ => 1 }

/-- A state whose stored `robotHeight` (10) exceeds what the leg can reach
with the oracle's femur angle, making the acos argument 36/25 > 1. -/
def sC2 : HexState := { baseState with robotHeight := 10 }

/-- C2 (code evidence for the bug): on an IK solve whose acos argument
`(robotHeight + femurLen * sin femur) / tibiaLen` is 36/25, outside
`[-1, 1]`, the solver raises an uncaught `ValueError` (the `math.acos`
domain error) - there is no `GeometryUnreachable` report, no per-leg
suppression, and no hold-previous-angles path in the code; the state is
returned unchanged only because the exception aborts the computation. -/
theorem c2_unreachable_geometry_uncaught :
    (tibiaFemurWalkAngles opsAcosBad sC2 leg2 0).2.2 = Except.error PyExn.valueError ∧
    (tibiaFemurWalkAngles opsAcosBad sC2 leg2 0).1 = sC2 := by
  have harg : (sC2.robotHeight + femurLen * opsAcosBad.mathSin 0) / tibiaLen = 36/25 := by
    have h1 : sC2.robotHeight = 10 := rfl
    have h2 : opsAcosBad.mathSin 0 = 1 := rfl
    rw [h1, h2]
    norm_num [femurLen, tibiaLen]
  have h := tfwa_eval_acos_error opsAcosBad sC2 leg2 0 rfl
    (by
      have hcd : opsAcosBad.cosDeg (0 + coxaAngleOffsets leg2) = 1 := rfl
      rw [hcd]
      norm_num)
    0 rfl
    (by
      rw [harg]
      norm_num)
  rw [h]
  exact ⟨rfl, rfl⟩

/-- The oracle whose `scipy.optimize.newton` never converges (always raises
`RuntimeError`). -/
def opsNewtonFails : TrigOps := { trivOps with newton := fun _ _ _ => none }

/-- C9 (code evidence for the bug): when the iterative root-finder exceeds
its budget (a `RuntimeError` from `scipy.optimize.newton`), the exception
propagates out of `tibiaFemurWalkAngles` uncaught: there is no retry with
the last converged seed (the seed is always `radians(femurStandStartAngle)`),
no `KinematicsUnconverged` report, and no hold-last-valid-angles path. -/
theorem c9_solver_divergence_uncaught :
    (tibiaFemurWalkAngles opsNewtonFails baseState leg2 0).2.2 =
      Except.error PyExn.runtimeError ∧
    (tibiaFemurWalkAngles opsNewtonFails baseState leg2 0).1 = baseState := by
  have h := tfwa_eval_newton_error opsNewtonFails baseState leg2 0 rfl
    (by
      have hcd : opsNewtonFails.cosDeg (0 + coxaAngleOffsets leg2) = 1 := rfl
      rw [hcd]
      norm_num)
    rfl
  rw [h]
  exact ⟨rfl, rfl⟩

/-- C6 (code evidence for the bug): the cache is keyed by the raw effective
coxa angle under exact equality, with no quantization.  After solving for
effective key 0, the entry sits under the exact rational 0, and a lookup for
the effective key `10⁻⁹` - equal to 0 at any fixed decimal quantization the
spec could intend (e.g. 4 places) - still misses. -/
theorem c6_cache_keyed_by_raw_value :
    getTibiaFemurWalkAnglesInCache (tibiaFemurWalkAngles trivOps baseState leg2 0).1
      ((0 : ℚ) + coxaAngleOffsets leg2) = some (0, 0) ∧
    getTibiaFemurWalkAnglesInCache (tibiaFemurWalkAngles trivOps baseState leg2 0).1
      ((1/1000000000 : ℚ) + coxaAngleOffsets leg2) = none := by
  have harg : (baseState.robotHeight + femurLen * trivOps.mathSin 0) / tibiaLen = 0 := by
    have h1 : baseState.robotHeight = 0 := rfl
    have h2 : trivOps.mathSin 0 = 0 := rfl
    rw [h1, h2, mul_zero, add_zero, zero_div]
  have hmiss := tfwa_eval_miss trivOps baseState leg2 0 rfl
    (by
      have hcd : trivOps.cosDeg (0 + coxaAngleOffsets leg2) = 1 := rfl
      rw [hcd]
      norm_num)
    0 rfl
    (by
      rw [harg]
      norm_num)
  have hval : (trivOps.degrees 0,
      trivOps.degrees (trivOps.mathAcosVal
        ((baseState.robotHeight + femurLen * trivOps.mathSin 0) / tibiaLen) - 0)) =
      ((0 : ℚ), (0 : ℚ)) := by
    rw [harg]
    simp [trivOps]
  have hstate : (tibiaFemurWalkAngles trivOps baseState leg2 0).1 =
      putTibiaFemurWalkAnglesInCache baseState ((0 : ℚ) + coxaAngleOffsets leg2)
        ((0 : ℚ), (0 : ℚ)) := by
    rw [hmiss]
    show putTibiaFemurWalkAnglesInCache _ _ _ = _
    rw [hval]
  rw [hstate]
  unfold getTibiaFemurWalkAnglesInCache putTibiaFemurWalkAnglesInCache
  constructor
  · show Function.update baseState.tibiaFemurWalkAnglesCache
      ((0 : ℚ) + coxaAngleOffsets leg2) (some ((0 : ℚ), (0 : ℚ)))
      ((0 : ℚ) + coxaAngleOffsets leg2) = some (0, 0)
    rw [Function.update_same]
  · show Function.update baseState.tibiaFemurWalkAnglesCache
      ((0 : ℚ) + coxaAngleOffsets leg2) (some ((0 : ℚ), (0 : ℚ)))
      ((1/1000000000 : ℚ) + coxaAngleOffsets leg2) = none
    have hne : (1/1000000000 : ℚ) + coxaAngleOffsets leg2 ≠ (0 : ℚ) + coxaAngleOffsets leg2 := by
      have hoffs : coxaAngleOffsets leg2 = 0 := rfl
      rw [hoffs]
      norm_num
    rw [Function.update_noteq hne]
    rfl

end Hexapod
